import Mathlib

/-!
Verification of the Hephaestus idea-development assistant.

This file gives a shallow embedding, in Lean 4, of the agent composition and
response-consensus core of the repository (the consensus manager, the agent
coordinator, the agent factory, the domain/specialized agents' parsing and
caching logic, and the supporting data model), and proves or refutes the
frozen specification claims about it.

Python strings are modelled as Lean `String` values; the handful of Python
`str` operations the code uses (`split`, `strip`, `lower`, `startswith`,
substring membership) are defined below by structural recursion over the
underlying character list, so that every definition evaluates by kernel
reduction on concrete inputs.  Python `float` thresholds are modelled as `ℚ`
(the concrete thresholds exercised by the claims, 0.5 and 0.6, are exact in
both models at the comparison points used).  Python exceptions are modelled
with `Except String`; a Python `dict`/`Counter` is modelled as an association
list in first-insertion order, matching the insertion-ordered iteration of
Python 3.7+ dictionaries.
-/

namespace Hephaestus

/-! ### Character-level models of the Python `str` operations used by the code -/

/-- Model of Python `s.split(sep)` for a one-character separator: produces the
(possibly empty) pieces between occurrences of `sep`, always `n+1` pieces for
`n` separator occurrences, exactly like Python `str.split` with an explicit
separator. -/
def chSplit (sep : Char) : List Char → List (List Char)
  | [] => [[]]
  | c :: cs =>
    if c = sep then [] :: chSplit sep cs
    else
      match chSplit sep cs with
      | [] => [[c]]
      | h :: t => (c :: h) :: t

/-- Model of Python `s.split('\n\n')`: greedy left-to-right splitting on two
consecutive newline characters (Python scans for non-overlapping occurrences
of the separator from the left). -/
def splitPara : List Char → List (List Char)
  | [] => [[]]
  | '\n' :: '\n' :: rest => [] :: splitPara rest
  | c :: rest =>
    match splitPara rest with
    | [] => [[c]]
    | h :: t => (c :: h) :: t

/-- Model of Python `s.strip()`: removes whitespace from both ends.  (Python
strips all Unicode whitespace; the inputs in this development only involve
ASCII whitespace, where `Char.isWhitespace` agrees.) -/
def stripCL (l : List Char) : List Char :=
  ((l.dropWhile Char.isWhitespace).reverse.dropWhile Char.isWhitespace).reverse

/-- Model of Python `needle in hay` on strings: contiguous-substring test. -/
def containsSub (needle : List Char) : List Char → Bool
  | [] => needle.isEmpty
  | c :: cs => needle.isPrefixOf (c :: cs) || containsSub needle cs

/-- Boolean lexicographic order on character lists by code point, the order
Python uses to compare and sort strings. -/
def lexLe : List Char → List Char → Bool
  | [], _ => true
  | _ :: _, [] => false
  | a :: as, b :: bs => if a < b then true else if a = b then lexLe as bs else false

/-- Python `s.split(sep)` (one-character separator), on `String`. -/
def pySplit (sep : Char) (s : String) : List String :=
  (chSplit sep s.data).map String.mk

/-- Python `s.split('\n\n')`, on `String`. -/
def pySplitPara (s : String) : List String :=
  (splitPara s.data).map String.mk

/-- Python `s.strip()`, on `String`. -/
def pyStrip (s : String) : String := String.mk (stripCL s.data)

/-- Python `s.lower()`, on `String` (ASCII case mapping, which is all the
per-domain lexicon matching in the source exercises). -/
def pyLower (s : String) : String := String.mk (s.data.map Char.toLower)

/-- Python `s.startswith(p)`, on `String`. -/
def pyStartsWith (p s : String) : Bool := p.data.isPrefixOf s.data

/-- Python `c in s` for a single character. -/
def pyContainsChar (c : Char) (s : String) : Bool := s.data.contains c

/-- Python `needle in hay` on strings. -/
def pyContains (needle hay : String) : Bool := containsSub needle.data hay.data

/-- Python `len(s)` (number of characters). -/
def pyLen (s : String) : Nat := s.data.length

/-- The order used by Python `sorted` on strings, as a `Prop` relation. -/
def pyStrLe (a b : String) : Prop := lexLe a.data b.data = true

instance : DecidableRel pyStrLe := fun a b => instDecidableEqBool (lexLe a.data b.data) true

/-- Python `sorted(l)` for a list of strings. -/
def pySorted (l : List String) : List String := List.insertionSort pyStrLe l

/-- Python `sorted(l, key=len)` for a list of strings (used by the consensus
manager's implementation-step merge). -/
def pySortedByLen (l : List String) : List String :=
  List.insertionSort (fun a b : String => pyLen a ≤ pyLen b) l

/-! ### Data model (`src/core/domain_types.py`, `src/core/idea.py`)

`DomainType` is transcribed member by member from `domain_types.py`; note that
the source enum has exactly eight members — there is no `WRITING` member, even
though `src/agents/prompt_manager.py` refers to `DomainType.WRITING`. -/
inductive DomainType
  | technology
  | business
  | hard_science
  | code
  | literature
  | social_science
  | arts
  | philosophy
deriving DecidableEq, Repr

/-- The string payload of each `DomainType` member, from `domain_types.py`. -/
def DomainType.value : DomainType → String
  | .technology => "technology"
  | .business => "business"
  | .hard_science => "hard_science"
  | .code => "code"
  | .literature => "literature"
  | .social_science => "social_science"
  | .arts => "arts"
  | .philosophy => "philosophy"

/-- Every member of the source enum, in declaration order. -/
def all_domain_types : List DomainType :=
  [.technology, .business, .hard_science, .code, .literature, .social_science,
   .arts, .philosophy]

/-- The `Idea` dataclass from `src/core/idea.py` (the optional `context`
mapping is carried by no claim and is omitted; agents only read ideas). -/
structure Idea where
  concept : String
  domain : DomainType
  keywords : List String
  development_stage : String
deriving DecidableEq, Repr

/-- The `AgentResponse` dataclass from `src/core/idea.py`. -/
structure AgentResponse where
  suggestions : List String
  questions : List String
  related_concepts : List String
  implementation_steps : List String
  next_steps_tree : Option String
  concept_image : Option String := none
deriving DecidableEq, Repr

/-! ### Consensus manager (`src/agents/composition/consensus_manager.py`) -/

/-- The pooled suggestion list built by the loop
`for response in responses: all_suggestions.extend(response.suggestions)`. -/
def all_suggestions_of (responses : List AgentResponse) : List String :=
  (responses.map (·.suggestions)).flatten

/-- The key list of `Counter(l)`: the distinct elements of `l` in
first-occurrence order, which is the iteration order of a Python 3.7+
`Counter`/`dict`.  (Mathlib's `List.dedup` keeps last occurrences and would
give the wrong order, so the first-occurrence key list is defined here:
the head is kept and later duplicates of it are dropped.) -/
def counter_keys : List String → List String
  | [] => []
  | a :: as => a :: (counter_keys as).filter (fun b => b ≠ a)

/-- `ConsensusManager.get_consensus_suggestions`.  `Counter(all_suggestions)`
is modelled as the association list pairing each distinct suggestion, in
first-occurrence order, with its multiplicity; the comprehension keeps the
keys whose count is at least `len(responses) * threshold`. -/
def get_consensus_suggestions (responses : List AgentResponse) (threshold : ℚ) : List String :=
  let all_suggestions := all_suggestions_of responses
  let suggestion_counts :=
    (counter_keys all_suggestions).map (fun s => (s, all_suggestions.count s))
  let min_count : ℚ := (responses.length : ℚ) * threshold
  (suggestion_counts.filter (fun it => min_count ≤ (it.2 : ℚ))).map (·.1)

/-- The `common_steps` set of `merge_implementation_steps`: Python's
`set.intersection(*map(set, [primary_steps] + supporting_steps))`.  A Python
set is modelled as a deduplicated list; its (hash-order) iteration order is
represented canonically by first occurrence in the primary list. -/
def common_steps (primary_steps : List String) (supporting_steps : List (List String)) : List String :=
  primary_steps.dedup.filter (fun s => supporting_steps.all (fun l => l.contains s))

/-- The `unique_steps` set of `merge_implementation_steps`:
`set.union(*map(set, supporting_steps)) - common_steps`. -/
def unique_steps (primary_steps : List String) (supporting_steps : List (List String)) : List String :=
  supporting_steps.flatten.dedup.filter
    (fun s => !(common_steps primary_steps supporting_steps).contains s)

/-- `ConsensusManager.merge_implementation_steps`.  `responses[0]` raises
`IndexError` on an empty list, and `set.union(*map(set, supporting_steps))`
raises `TypeError` when there is no supporting response, because `set.union`
is then called with no arguments at all; both failure branches are part of
the source behaviour. -/
def merge_implementation_steps (responses : List AgentResponse) : Except String (List String) :=
  match responses with
  | [] => .error "IndexError: list index out of range"
  | [_] => .error "TypeError: descriptor 'union' of 'set' object needs an argument"
  | r0 :: r1 :: rest =>
    let primary_steps := r0.implementation_steps
    let supporting_steps := (r1 :: rest).map (·.implementation_steps)
    let final_steps :=
      common_steps primary_steps supporting_steps ++
        pySortedByLen (unique_steps primary_steps supporting_steps)
    .ok (final_steps.take 10)

instance : IsTotal String (fun a b => pyLen a ≤ pyLen b) := ⟨fun a b => Nat.le_total _ _⟩

instance : IsTrans String (fun a b => pyLen a ≤ pyLen b) := ⟨fun _ _ _ => Nat.le_trans⟩

/-! ### Agent coordinator (`src/agents/composition/agent_coordinator.py`)

`AgentCoordinator` derives from no base class and defines only `__init__`,
`process_complex_idea` and `_merge_responses`.  The body of
`_merge_responses` begins with
`all_suggestions = self._get_consensus_suggestions([primary] + supporting)`,
and neither `_get_consensus_suggestions` nor `_get_consensus_questions` nor
`_merge_implementation_steps` is defined anywhere on the class (the
intended static methods live on `ConsensusManager`, which the method never
references), so the first statement of the body raises `AttributeError` on
every invocation, before any `AgentResponse` is constructed. -/

/-- `AgentCoordinator._merge_responses`: attribute resolution of
`self._get_consensus_suggestions` fails unconditionally. -/
def coordinator_merge_responses (_primary : AgentResponse) (_supporting : List AgentResponse) :
    Except String AgentResponse :=
  .error "AttributeError: 'AgentCoordinator' object has no attribute '_get_consensus_suggestions'"

/-- `AgentCoordinator.process_complex_idea`: runs the primary agent, then each
supporting agent in the supplied order, then merges.  Each agent is modelled
as a function from the idea to its (possibly failing) response. -/
def process_complex_idea (primary_agent : Idea → Except String AgentResponse)
    (supporting_agents : List (Idea → Except String AgentResponse)) (idea : Idea) :
    Except String AgentResponse := do
  let primary_response ← primary_agent idea
  let supporting_responses ← supporting_agents.mapM (fun agent => agent idea)
  coordinator_merge_responses primary_response supporting_responses

/-! ### Domain catalog and the prompt manager (`src/core/domain_types.py`,
`src/agents/prompt_manager.py`) -/

/-- `PromptManager.get_domain_prompt`: the method body builds a dict literal
whose keys include `DomainType.WRITING`, but the `DomainType` enum has no
member named `WRITING`, so evaluating the dict raises `AttributeError` for
every argument, before any key lookup happens.  (The prompt template texts
are irrelevant to every claim and are omitted.) -/
def get_domain_prompt (_d : DomainType) : Except String String :=
  .error "AttributeError: type object 'DomainType' has no attribute 'WRITING'"

/-! ### Agent factory (`src/agents/agent_factory.py`) -/

/-- The concrete agent classes the factory can instantiate.  The generic
default `DomainAgent` is the fallback for domains with no registry entry. -/
inductive AgentKind
  | technologyAgent
  | businessAgent
  | scienceAgent
  | codeAgent
  | genericDomainAgent
deriving DecidableEq, Repr

/-- The class-level `_agent_registry` dict of `AgentFactory`, transcribed
entry by entry. -/
def agent_registry : List (DomainType × AgentKind) :=
  [(.technology, .technologyAgent),
   (.business, .businessAgent),
   (.hard_science, .scienceAgent),
   (.code, .codeAgent)]

/-- An agent instance: its class, the domain passed to `__init__` (stored as
`self.domain`), and an allocation number standing for Python object identity
(two agents are the same runtime object exactly when their `instance_id`
coincides, since the id counter increments at each construction). -/
structure Agent where
  kind : AgentKind
  domain : DomainType
  instance_id : Nat
deriving DecidableEq, Repr

/-- The memoization state of `create_agent`: the `lru_cache` table plus the
allocation counter.  `maxsize=10` never evicts, because at most eight
distinct domain keys exist. -/
structure FactoryState where
  cache : List (DomainType × Agent)
  next_id : Nat
deriving DecidableEq, Repr

/-- `AgentFactory.create_agent`: `ValueError` on a null domain; otherwise the
memoized instance if one exists, else a fresh instance of the registered
class — or of the generic `DomainAgent` when the domain has no registry
entry (`cls._agent_registry.get(domain, DomainAgent)`). -/
def create_agent (st : FactoryState) (domain : Option DomainType) :
    Except String (Agent × FactoryState) :=
  match domain with
  | none => .error "ValueError: Domain cannot be None"
  | some d =>
    match st.cache.lookup d with
    | some a => .ok (a, st)
    | none =>
      let agent_class := (agent_registry.lookup d).getD .genericDomainAgent
      let a : Agent := ⟨agent_class, d, st.next_id⟩
      .ok (a, ⟨(d, a) :: st.cache, st.next_id + 1⟩)

/-- Invariant of every reachable factory cache: each memoized agent was built
for its own key, with the class the registry prescribes. -/
def FactoryWF (st : FactoryState) : Prop :=
  ∀ p ∈ st.cache, (p : DomainType × Agent).2.domain = p.1 ∧
    p.2.kind = (agent_registry.lookup p.1).getD .genericDomainAgent

/-! ### Generic domain agent response parsing (`src/agents/domain_agent.py`)

`DomainAgent._parse_analysis_response` folds over the lines of the
completion text with a mutable `sections` dict and a `current_section`
variable.  Python `str.splitlines()` is modelled as splitting on `'\n'`;
the two differ only on `'\r'` variants and a trailing newline, where the
extra empty piece is skipped by the loop anyway. -/

/-- The three-list result dict, with its exactly three keys. -/
structure DomainSections where
  suggestions : List String
  questions : List String
  related_concepts : List String
deriving DecidableEq, Repr

/-- Appends one parsed entry to the list selected by the current section
key (`sections[current_section].append(line[2:])`); an unknown key leaves
the dict unchanged (the loop only ever stores recognized keys). -/
def addLine (sec entry : String) (s : DomainSections) : DomainSections :=
  if sec = "suggestions" then {s with suggestions := s.suggestions ++ [entry]}
  else if sec = "questions" then {s with questions := s.questions ++ [entry]}
  else if sec = "related_concepts" then {s with related_concepts := s.related_concepts ++ [entry]}
  else s

/-- One iteration of the parsing loop: strip the line; skip it when empty;
when it contains a colon, treat it as a header candidate
(`section = line.split(':')[0].lower()`) and update `current_section` only
when recognized; otherwise collect it when it is a bullet and a section is
current. -/
def parse_step (st : DomainSections × Option String) (rawLine : String) :
    DomainSections × Option String :=
  if pyStrip rawLine = "" then st
  else if pyContainsChar ':' (pyStrip rawLine) then
    if pyLower ((pySplit ':' (pyStrip rawLine)).headD "") = "suggestions"
        ∨ pyLower ((pySplit ':' (pyStrip rawLine)).headD "") = "questions"
        ∨ pyLower ((pySplit ':' (pyStrip rawLine)).headD "") = "related_concepts" then
      (st.1, some (pyLower ((pySplit ':' (pyStrip rawLine)).headD "")))
    else st
  else if pyStartsWith "- " (pyStrip rawLine) then
    match st.2 with
    | some sec => (addLine sec ((pyStrip rawLine).drop 2) st.1, st.2)
    | none => st
  else st

/-- `DomainAgent._parse_analysis_response`. -/
def domain_parse_analysis (response : String) : DomainSections :=
  ((pySplit '\n' response).foldl parse_step (⟨[], [], []⟩, none)).1

/-- A (stripped) line is a recognized section header when it contains a
colon and its text before the first colon, lowercased, names one of the
three sections. -/
def recognized_header (line : String) : Option String :=
  if pyContainsChar ':' line then
    if pyLower ((pySplit ':' line).headD "") = "suggestions"
        ∨ pyLower ((pySplit ':' line).headD "") = "questions"
        ∨ pyLower ((pySplit ':' line).headD "") = "related_concepts" then
      some (pyLower ((pySplit ':' line).headD ""))
    else none
  else none

/-- Adds an entry to the front of the section list (used by the
declarative per-line collectors below, which recurse towards the tail). -/
def addFront (sec entry : String) (s : DomainSections) : DomainSections :=
  if sec = "suggestions" then {s with suggestions := entry :: s.suggestions}
  else if sec = "questions" then {s with questions := entry :: s.questions}
  else if sec = "related_concepts" then {s with related_concepts := entry :: s.related_concepts}
  else s

/-- The claim C9 as stated, as a definition: every line that (stripped)
starts with `"- "` — with no further proviso — is collected under the most
recently seen recognized header. -/
def claimed_collect (cur : Option String) : List String → DomainSections
  | [] => ⟨[], [], []⟩
  | rawLine :: ls =>
    match recognized_header (pyStrip rawLine) with
    | some sec => claimed_collect (some sec) ls
    | none =>
      if pyStartsWith "- " (pyStrip rawLine) then
        match cur with
        | some sec => addFront sec ((pyStrip rawLine).drop 2) (claimed_collect cur ls)
        | none => claimed_collect cur ls
      else claimed_collect cur ls

/-- Classification of one line by the amended declarative reading of the
parser, parameterized by the collection of the remaining lines: a line
containing a colon that is not a recognized header is consumed as a failed
header candidate and never collected. -/
def amended_line (cur : Option String) (rawLine : String)
    (k : Option String → DomainSections) : DomainSections :=
  match recognized_header (pyStrip rawLine) with
  | some sec => k (some sec)
  | none =>
    if pyContainsChar ':' (pyStrip rawLine) then k cur
    else if pyStartsWith "- " (pyStrip rawLine) then
      match cur with
      | some sec => addFront sec ((pyStrip rawLine).drop 2) (k cur)
      | none => k cur
    else k cur

/-- The amended declarative reading of the parser: the collected bullets are
exactly the colon-free lines starting with `"- "` that follow the most
recent recognized header. -/
def amended_collect (cur : Option String) : List String → DomainSections
  | [] => ⟨[], [], []⟩
  | rawLine :: ls => amended_line cur rawLine (fun c => amended_collect c ls)

/-- Pointwise concatenation of two parse results. -/
def append3 (a b : DomainSections) : DomainSections :=
  ⟨a.suggestions ++ b.suggestions, a.questions ++ b.questions,
   a.related_concepts ++ b.related_concepts⟩

/-! ### Specialized-agent analysis parsing
(`src/agents/specialized_agents/technology_agent.py`,
`src/agents/specialized_agents/science_agent.py`)

Both `_parse_analysis_response` methods split the completion on blank-line
boundaries, keep the stripped non-empty paragraphs, and index paragraphs
1–4 directly; `_extract_key_points` differs between the two classes only in
the fixed keyword lexicon. -/

/-- `[p.strip() for p in response.split('\n\n') if p.strip()]`, as written
identically in both specialized agents. -/
def split_paragraphs (response : String) : List String :=
  ((pySplitPara response).map pyStrip).filter (fun p => p ≠ "")

/-- The fixed lexicon of `TechnologyAgent._extract_key_points`. -/
def tech_words : List String :=
  ["technolog", "system", "develop", "implement", "component", "design"]

/-- The fixed lexicon of `ScienceAgent._extract_key_points`. -/
def sci_words : List String :=
  ["research", "experiment", "method", "analysis", "data", "hypothesis", "theory"]

/-- `_extract_key_points`, parameterized by the per-class lexicon: split the
paragraph into sentences on `'.'`, strip each, keep the sentences longer
than 15 characters containing some lexicon word (lowercased), cap at 5. -/
def extract_key_points (words : List String) (text : String) : List String :=
  (((pySplit '.' text).map pyStrip).filter
    (fun s => decide (15 < pyLen s) && words.any (fun w => pyContains w (pyLower s)))).take 5

/-- The four-category result dict of the specialized parsers. -/
structure ParsedAnalysis where
  suggestions : List String
  questions : List String
  related_concepts : List String
  innovations : List String
deriving DecidableEq, Repr

/-- `_parse_analysis_response` of the specialized agents, parameterized by
the lexicon: the dict literal reads `paragraphs[1]` … `paragraphs[4]`
directly, so any completion with fewer than 5 surviving paragraphs raises
`IndexError` — there is no padding anywhere in either method. -/
def parse_analysis_response (words : List String) (response : String) :
    Except String ParsedAnalysis :=
  if h5 : 5 ≤ (split_paragraphs response).length then
    .ok ⟨extract_key_points words ((split_paragraphs response).get ⟨1, by omega⟩),
         extract_key_points words ((split_paragraphs response).get ⟨2, by omega⟩),
         extract_key_points words ((split_paragraphs response).get ⟨3, by omega⟩),
         extract_key_points words ((split_paragraphs response).get ⟨4, by omega⟩)⟩
  else .error "IndexError: list index out of range"

/-- `TechnologyAgent._parse_analysis_response`. -/
def tech_parse_analysis (response : String) : Except String ParsedAnalysis :=
  parse_analysis_response tech_words response

/-- `ScienceAgent._parse_analysis_response`. -/
def sci_parse_analysis (response : String) : Except String ParsedAnalysis :=
  parse_analysis_response sci_words response

/-! ### External collaborators and the agent pipelines
(`src/agents/base_agent.py`, `src/agents/domain_agent.py`,
`src/agents/specialized_agents/science_agent.py`)

The completion, diagram, image and persistence collaborators are external
services; each is modelled as an oracle field.  `OpenAIService` (in
`src/services/openai_service.py`) defines only `create_completion` — it has
no `create_image` method, which matters for the science agent below.
The multi-line f-string prompt templates are abbreviated to tagged strings
carrying their data dependencies; no claim depends on prompt text. -/
structure Services where
  create_completion : String → Except String String
  generate_diagram : String → String → Except String String
  generate_image : String → Option String
  save_idea : Idea → AgentResponse → Nat

/-- `DomainAgent._create_analysis_prompt`, abbreviated: a function of the
concept and of `', '.join(idea.keywords)`. -/
def domain_analysis_prompt (idea : Idea) : String :=
  "domain-analysis:" ++ idea.concept ++ ":" ++ String.intercalate ", " idea.keywords

/-- `DomainAgent._create_implementation_prompt`, abbreviated: a function of
the concept and the analysis suggestions. -/
def domain_implementation_prompt (idea : Idea) (analysis : DomainSections) : String :=
  "domain-implementation:" ++ idea.concept ++ ":" ++
    String.intercalate "\n" (analysis.suggestions.map (fun s => "- " ++ s))

/-- `_create_diagram_prompt` (identical in `BaseAgent` and `DomainAgent`),
abbreviated: a function of the steps. -/
def diagram_prompt (steps : List String) : String :=
  "diagram:" ++ String.intercalate "\n" (steps.map (fun s => "- " ++ s))

/-- `[step.strip() for step in response.split('\n') if step.strip()]`, the
implementation-step splitting shared by the agents. -/
def split_steps (raw : String) : List String :=
  ((pySplit '\n' raw).map pyStrip).filter (fun s => s ≠ "")

/-- `_generate_next_steps_diagram` (the identical `try`/`except` bodies of
`BaseAgent` and `DomainAgent`): on any failure of the completion call or of
the diagram renderer the exception is swallowed and `None` is returned. -/
def generate_next_steps_diagram (svc : Services) (idea : Idea) (steps : List String) :
    Option String :=
  match (do
    let resp ← svc.create_completion (diagram_prompt steps)
    svc.generate_diagram idea.concept resp : Except String String) with
  | .ok d => some d
  | .error _ => none

/-- `DomainAgent.process_idea`: analysis, implementation steps, diagram,
then the response; `DomainAgent` never sets `concept_image`, so the
dataclass default `None` applies.  Completion failures during analysis or
step generation propagate (`except … raise`). -/
def domain_process_idea (svc : Services) (idea : Idea) : Except String AgentResponse := do
  let raw ← svc.create_completion (domain_analysis_prompt idea)
  let analysis := domain_parse_analysis raw
  let steps_raw ← svc.create_completion (domain_implementation_prompt idea analysis)
  let steps := split_steps steps_raw
  let tree := generate_next_steps_diagram svc idea steps
  pure ⟨analysis.suggestions, analysis.questions, analysis.related_concepts, steps, tree, none⟩

/-! ### The per-instance memoized analysis of the specialized agents
(`technology_agent.py`, `science_agent.py`)

`_analyze_idea_cached` is decorated with `functools.lru_cache(maxsize=100)`
and keyed by `(concept, ','.join(sorted(idea.keywords)))`; the cache and an
oracle-invocation counter are threaded explicitly.  The generic
`DomainAgent._analyze_idea` has no such decorator and always invokes the
completion service. -/

/-- `','.join(sorted(keywords))`. -/
def sorted_join (keywords : List String) : String :=
  String.intercalate "," (pySorted keywords)

/-- The `lru_cache` key of `_analyze_idea_cached` for a given idea. -/
def idea_cache_key (idea : Idea) : String × String :=
  (idea.concept, sorted_join idea.keywords)

/-- The memoization state of one agent instance: the cache table (never
evicting within the two calls any claim exercises, far below `maxsize=100`)
together with the number of completion-service invocations made so far. -/
structure AnalysisCacheState where
  cache : List ((String × String) × ParsedAnalysis)
  completion_calls : Nat
deriving DecidableEq, Repr

/-- `_analyze_idea_cached` / `_analyze_idea`, parameterized by the per-class
prompt builder and lexicon: on a cache hit the stored analysis is returned
with no completion call; on a miss the completion service is invoked, the
response parsed, and the result cached.  A completion or parse failure
propagates and caches nothing (`lru_cache` does not cache exceptions). -/
def cached_analyze (prompt_of : String → String → String) (words : List String)
    (svc : Services) (st : AnalysisCacheState) (idea : Idea) :
    Except String (ParsedAnalysis × AnalysisCacheState) :=
  match st.cache.lookup (idea_cache_key idea) with
  | some a => .ok (a, st)
  | none =>
    match svc.create_completion (prompt_of idea.concept (idea_cache_key idea).2) with
    | .error e => .error e
    | .ok resp =>
      match parse_analysis_response words resp with
      | .error e => .error e
      | .ok a => .ok (a, ⟨(idea_cache_key idea, a) :: st.cache, st.completion_calls + 1⟩)

/-- `TechnologyAgent._create_analysis_prompt_internal`, abbreviated. -/
def tech_analysis_prompt (concept keywords_str : String) : String :=
  "tech-analysis:" ++ concept ++ ":" ++ keywords_str

/-- `ScienceAgent._create_analysis_prompt_internal`, abbreviated. -/
def sci_analysis_prompt (concept keywords_str : String) : String :=
  "sci-analysis:" ++ concept ++ ":" ++ keywords_str

/-- `TechnologyAgent._analyze_idea` (through `_analyze_idea_cached`). -/
def tech_analyze_idea (svc : Services) (st : AnalysisCacheState) (idea : Idea) :
    Except String (ParsedAnalysis × AnalysisCacheState) :=
  cached_analyze tech_analysis_prompt tech_words svc st idea

/-- `ScienceAgent._analyze_idea` (through `_analyze_idea_cached`). -/
def sci_analyze_idea (svc : Services) (st : AnalysisCacheState) (idea : Idea) :
    Except String (ParsedAnalysis × AnalysisCacheState) :=
  cached_analyze sci_analysis_prompt sci_words svc st idea

/-- `DomainAgent._analyze_idea` with the same invocation counter: no cache,
one completion call per invocation, and its parser is total. -/
def domain_analyze_idea (svc : Services) (st : AnalysisCacheState) (idea : Idea) :
    Except String (DomainSections × AnalysisCacheState) :=
  match svc.create_completion (domain_analysis_prompt idea) with
  | .error e => .error e
  | .ok resp => .ok (domain_parse_analysis resp, ⟨st.cache, st.completion_calls + 1⟩)

/-- `ScienceAgent._create_implementation_prompt`, abbreviated. -/
def sci_implementation_prompt (idea : Idea) (analysis : ParsedAnalysis) : String :=
  "sci-implementation:" ++ idea.concept ++ ":" ++
    String.intercalate "\n" ((analysis.suggestions.take 3).map (fun s => "- " ++ s))

/-- `ScienceAgent._generate_image_prompt`, abbreviated. -/
def sci_image_prompt (idea : Idea) (analysis : ParsedAnalysis) : String :=
  "sci-image:" ++ idea.concept ++ ":" ++
    String.intercalate "\n" ((analysis.suggestions.take 2).map (fun s => "- " ++ s))

/-- `ScienceAgent._generate_concept_image`: builds the image prompt via a
completion call (whose failure propagates), then evaluates
`self.openai_service.create_image(prompt)` — an attribute `OpenAIService`
does not define, so the `try` body raises `AttributeError`, and the
`except` handler logs and re-raises (`raise`). -/
def sci_generate_concept_image (svc : Services) (idea : Idea) (analysis : ParsedAnalysis) :
    Except String String := do
  let _ ← svc.create_completion (sci_image_prompt idea analysis)
  .error "AttributeError: 'OpenAIService' object has no attribute 'create_image'"

/-- `ScienceAgent.process_idea`: analysis, steps, diagram (recovered-on-
failure), then the concept image, whose failure propagates through the
method's own `except … raise`; persistence is a side effect of success. -/
def sci_process_idea (svc : Services) (st : AnalysisCacheState) (idea : Idea) :
    Except String AgentResponse :=
  match sci_analyze_idea svc st idea with
  | .error e => .error e
  | .ok pr =>
    match svc.create_completion (sci_implementation_prompt idea pr.1) with
    | .error e => .error e
    | .ok steps_raw =>
      let steps := split_steps steps_raw
      let tree := generate_next_steps_diagram svc idea steps
      match sci_generate_concept_image svc idea pr.1 with
      | .error e => .error e
      | .ok img =>
        let resp : AgentResponse := ⟨pr.1.suggestions, pr.1.questions, pr.1.related_concepts,
          steps, tree, some img⟩
        let _ := svc.save_idea idea resp
        .ok resp

/-- Services whose completion succeeds with a fixed text and whose diagram
renderer always fails. -/
def diag_fail_services (c e : String) : Services :=
  { create_completion := fun _ => .ok c
    generate_diagram := fun _ _ => .error e
    generate_image := fun _ => none
    save_idea := fun _ _ => 0 }

/-- Services in which every external collaborator succeeds; the completion
text has five paragraphs so the specialized parsers accept it. -/
def ok_services : Services :=
  { create_completion := fun _ =>
      .ok "alpha one.\n\nbeta two.\n\ngamma three.\n\ndelta four.\n\nepsilon five."
    generate_diagram := fun _ _ => .ok "diagram"
    generate_image := fun _ => some "image"
    save_idea := fun _ _ => 1 }

/-- The first-occurrence key list has the same members as the pooled list. -/
lemma mem_counter_keys (l : List String) (s : String) : s ∈ counter_keys l ↔ s ∈ l := by
  induction l with
  | nil => simp [counter_keys]
  | cons a as ih =>
    rw [counter_keys]
    simp only [List.mem_cons, List.mem_filter, decide_eq_true_eq, ih]
    constructor
    · rintro (h | ⟨h, _⟩)
      · exact Or.inl h
      · exact Or.inr h
    · rintro (h | h)
      · exact Or.inl h
      · by_cases hsa : s = a
        · exact Or.inl hsa
        · exact Or.inr ⟨h, hsa⟩

/-- The first-occurrence key list is ordered by first occurrence in the
pooled list: the first-occurrence indices of its entries strictly
increase. -/
lemma counter_keys_pairwise (l : List String) :
    (counter_keys l).Pairwise (fun a b => l.indexOf a < l.indexOf b) := by
  induction l with
  | nil => exact List.Pairwise.nil
  | cons x xs ih =>
    rw [counter_keys]
    apply List.Pairwise.cons
    · intro b hb
      have hbne : b ≠ x := by
        have := (List.mem_filter.mp hb).2
        simpa using this
      rw [List.indexOf_cons_self, List.indexOf_cons_ne _ hbne.symm]
      omega
    · have hsub : ((counter_keys xs).filter (fun b => b ≠ x)).Sublist (counter_keys xs) :=
        List.filter_sublist _
      have hpw := List.Pairwise.sublist hsub ih
      apply hpw.imp_of_mem
      intro a b ha hb hR
      have hane : a ≠ x := by
        have := (List.mem_filter.mp ha).2
        simpa using this
      have hbne : b ≠ x := by
        have := (List.mem_filter.mp hb).2
        simpa using this
      rw [List.indexOf_cons_ne _ hane.symm, List.indexOf_cons_ne _ hbne.symm]
      omega

/-- The association-list model of `Counter(l).items()` projects, after
filtering, onto the filtered first-occurrence key list. -/
lemma counter_filter_map_fst (l : List String) (q : ℚ) :
    ((((counter_keys l).map (fun s => (s, l.count s))).filter
        (fun it => q ≤ (it.2 : ℚ))).map (·.1)) =
      (counter_keys l).filter (fun s => decide (q ≤ (l.count s : ℚ))) := by
  generalize counter_keys l = keys
  induction keys with
  | nil => rfl
  | cons k ks ih =>
    simp only [List.map_cons, List.filter_cons]
    by_cases h : q ≤ (l.count k : ℚ)
    · simp [h, ih]
    · simp [h, ih]

/-- `get_consensus_suggestions` keeps, in first-occurrence order, the pooled
suggestions whose multiplicity meets the threshold bound. -/
lemma get_consensus_suggestions_eq_filter (responses : List AgentResponse) (t : ℚ) :
    get_consensus_suggestions responses t =
      (counter_keys (all_suggestions_of responses)).filter
        (fun s => decide ((responses.length : ℚ) * t ≤
          ((all_suggestions_of responses).count s : ℚ))) := by
  unfold get_consensus_suggestions
  exact counter_filter_map_fst _ _

/-- Membership characterization of the suggestion consensus. -/
lemma mem_get_consensus_suggestions (responses : List AgentResponse) (t : ℚ) (s : String) :
    s ∈ get_consensus_suggestions responses t ↔
      (s ∈ all_suggestions_of responses ∧
        (responses.length : ℚ) * t ≤ ((all_suggestions_of responses).count s : ℚ)) := by
  rw [get_consensus_suggestions_eq_filter]
  simp [List.mem_filter, mem_counter_keys]

/-- C10: on the empty response list the suggestion consensus is total and
returns the empty list, for every threshold. -/
theorem get_consensus_suggestions_nil (t : ℚ) : get_consensus_suggestions [] t = [] := rfl

/-- C3: for a non-empty response list, `get_consensus_suggestions` returns
exactly the distinct pooled suggestions whose occurrence count is at least
`threshold * len(responses)`, ordered by first occurrence in the pooled list
(the first-occurrence indices of the output strictly increase); consequently
a single response keeps its own distinct suggestions in first-occurrence
order for any threshold at most 1, and with 4 responses a suggestion
occurring exactly twice is kept at threshold 1/2 and dropped at threshold
3/5. -/
theorem get_consensus_suggestions_spec (responses : List AgentResponse) (t : ℚ)
    (hne : responses ≠ []) :
    (∀ s, s ∈ get_consensus_suggestions responses t ↔
       (s ∈ all_suggestions_of responses ∧
         (responses.length : ℚ) * t ≤ ((all_suggestions_of responses).count s : ℚ)))
    ∧ (get_consensus_suggestions responses t).Pairwise
        (fun a b => (all_suggestions_of responses).indexOf a <
          (all_suggestions_of responses).indexOf b)
    ∧ (∀ (r : AgentResponse) (u : ℚ), u ≤ 1 →
        get_consensus_suggestions [r] u = counter_keys r.suggestions)
    ∧ (∀ (rs : List AgentResponse) (s : String), rs.length = 4 →
        (all_suggestions_of rs).count s = 2 →
        s ∈ get_consensus_suggestions rs (1/2) ∧ s ∉ get_consensus_suggestions rs (3/5)) := by
  refine ⟨fun s => mem_get_consensus_suggestions responses t s, ?_, ?_, ?_⟩
  · rw [get_consensus_suggestions_eq_filter]
    exact List.Pairwise.sublist (List.filter_sublist _) (counter_keys_pairwise _)
  · intro r u hu
    have hpool : all_suggestions_of [r] = r.suggestions := by
      simp [all_suggestions_of]
    rw [get_consensus_suggestions_eq_filter, hpool]
    apply List.filter_eq_self.mpr
    intro a ha
    have hmem : a ∈ r.suggestions := (mem_counter_keys _ _).mp ha
    have hcount : 1 ≤ r.suggestions.count a := List.count_pos_iff.mpr hmem
    have hcast : (1 : ℚ) ≤ (r.suggestions.count a : ℚ) := by exact_mod_cast hcount
    simp only [List.length_cons, List.length_nil, decide_eq_true_eq]
    push_cast
    linarith
  · intro rs s hlen hcount
    constructor
    · rw [mem_get_consensus_suggestions]
      have hmem : s ∈ all_suggestions_of rs := by
        have : 0 < (all_suggestions_of rs).count s := by omega
        exact List.count_pos_iff.mp this
      refine ⟨hmem, ?_⟩
      rw [hlen, hcount]
      norm_num
    · intro hmemc
      rw [mem_get_consensus_suggestions] at hmemc
      rw [hlen, hcount] at hmemc
      have := hmemc.2
      norm_num at this

/-- Witness for C3 at a concrete single-response instance. -/
theorem get_consensus_suggestions_spec_witness :
    (([⟨["beta", "alpha", "beta"], [], [], [], none, none⟩] : List AgentResponse) ≠ []) ∧
    ((∀ s, s ∈ get_consensus_suggestions [⟨["beta", "alpha", "beta"], [], [], [], none, none⟩] 1 ↔
       (s ∈ all_suggestions_of [⟨["beta", "alpha", "beta"], [], [], [], none, none⟩] ∧
         (([⟨["beta", "alpha", "beta"], [], [], [], none, none⟩] : List AgentResponse).length : ℚ)
             * 1 ≤
           ((all_suggestions_of
             [⟨["beta", "alpha", "beta"], [], [], [], none, none⟩]).count s : ℚ)))
    ∧ (get_consensus_suggestions
          [⟨["beta", "alpha", "beta"], [], [], [], none, none⟩] 1).Pairwise
        (fun a b =>
          (all_suggestions_of
            [⟨["beta", "alpha", "beta"], [], [], [], none, none⟩]).indexOf a <
          (all_suggestions_of
            [⟨["beta", "alpha", "beta"], [], [], [], none, none⟩]).indexOf b)
    ∧ (∀ (r : AgentResponse) (u : ℚ), u ≤ 1 →
        get_consensus_suggestions [r] u = counter_keys r.suggestions)
    ∧ (∀ (rs : List AgentResponse) (s : String), rs.length = 4 →
        (all_suggestions_of rs).count s = 2 →
        s ∈ get_consensus_suggestions rs (1/2) ∧ s ∉ get_consensus_suggestions rs (3/5))) :=
  ⟨by decide, get_consensus_suggestions_spec _ 1 (by decide)⟩

/-- C2 counterexample: on a one-element response list the merge does not
return a list at all — `set.union` is called with no arguments and the
function raises, refuting the claim's "for any list of AgentResponses". -/
theorem merge_implementation_steps_single_raises :
    merge_implementation_steps [⟨[], [], [], ["plan"], none, none⟩] =
      .error "TypeError: descriptor 'union' of 'set' object needs an argument" := rfl

/-- C2 (amended to lists of at least two responses): the merge returns the
common steps (the intersection of every response's step list) followed by the
supporting-only steps sorted by ascending length, truncated to 10; hence at
most 10 entries, with every intersection entry placed before every
non-intersection entry. -/
theorem merge_implementation_steps_spec (r0 r1 : AgentResponse) (rest : List AgentResponse) :
    ∃ us : List String,
      merge_implementation_steps (r0 :: r1 :: rest) =
        .ok ((common_steps r0.implementation_steps ((r1 :: rest).map (·.implementation_steps))
          ++ us).take 10)
      ∧ us.Perm (unique_steps r0.implementation_steps ((r1 :: rest).map (·.implementation_steps)))
      ∧ List.Sorted (fun a b : String => pyLen a ≤ pyLen b) us
      ∧ (∀ s, s ∈ common_steps r0.implementation_steps
            ((r1 :: rest).map (·.implementation_steps)) ↔
          (s ∈ r0.implementation_steps ∧ ∀ r ∈ r0 :: r1 :: rest, s ∈ r.implementation_steps))
      ∧ (∀ s, s ∈ us ↔
          (s ∈ ((r1 :: rest).map (·.implementation_steps)).flatten ∧
            ¬ ∀ r ∈ r0 :: r1 :: rest, s ∈ r.implementation_steps))
      ∧ ((common_steps r0.implementation_steps ((r1 :: rest).map (·.implementation_steps))
          ++ us).take 10).length ≤ 10
      ∧ ((common_steps r0.implementation_steps ((r1 :: rest).map (·.implementation_steps))
          ++ us).take 10).Pairwise (fun a b =>
            (∀ r ∈ r0 :: r1 :: rest, b ∈ r.implementation_steps) →
            (∀ r ∈ r0 :: r1 :: rest, a ∈ r.implementation_steps)) := by
  have hcommon : ∀ s, s ∈ common_steps r0.implementation_steps
      ((r1 :: rest).map (·.implementation_steps)) ↔
      (s ∈ r0.implementation_steps ∧ ∀ r ∈ r0 :: r1 :: rest, s ∈ r.implementation_steps) := by
    intro s
    unfold common_steps
    simp only [List.mem_filter, List.mem_dedup, List.all_eq_true, List.mem_map]
    constructor
    · rintro ⟨hs0, hall⟩
      refine ⟨hs0, ?_⟩
      intro r hr
      rcases List.mem_cons.mp hr with h | h
      · exact h ▸ hs0
      · have := hall r.implementation_steps ⟨r, h, rfl⟩
        exact List.elem_iff.mp this
    · rintro ⟨hs0, hall⟩
      refine ⟨hs0, ?_⟩
      rintro l ⟨r, hr, rfl⟩
      exact List.elem_iff.mpr (hall r (List.mem_cons_of_mem _ hr))
  have hunique : ∀ s, s ∈ unique_steps r0.implementation_steps
      ((r1 :: rest).map (·.implementation_steps)) ↔
      (s ∈ ((r1 :: rest).map (·.implementation_steps)).flatten ∧
        ¬ ∀ r ∈ r0 :: r1 :: rest, s ∈ r.implementation_steps) := by
    intro s
    unfold unique_steps
    simp only [List.mem_filter, List.mem_dedup, Bool.not_eq_true']
    constructor
    · rintro ⟨hfl, hnc⟩
      refine ⟨hfl, ?_⟩
      intro hall
      have hmem : s ∈ common_steps r0.implementation_steps
          ((r1 :: rest).map (·.implementation_steps)) :=
        (hcommon s).mpr ⟨hall r0 (List.mem_cons_self _ _), hall⟩
      have htr := List.elem_iff.mpr hmem
      unfold List.contains at hnc
      rw [hnc] at htr
      exact absurd htr (by decide)
    · rintro ⟨hfl, hnall⟩
      refine ⟨hfl, ?_⟩
      cases hc : (common_steps r0.implementation_steps
          ((r1 :: rest).map (·.implementation_steps))).contains s with
      | false => rfl
      | true => exact absurd ((hcommon s).mp (List.elem_iff.mp hc)).2 hnall
  have hperm := List.perm_insertionSort (fun a b : String => pyLen a ≤ pyLen b)
    (unique_steps r0.implementation_steps ((r1 :: rest).map (·.implementation_steps)))
  refine ⟨pySortedByLen (unique_steps r0.implementation_steps
    ((r1 :: rest).map (fun r : AgentResponse => r.implementation_steps))), ?_, ?_, ?_,
    hcommon, ?_, ?_, ?_⟩
  · rfl
  · exact hperm
  · exact List.sorted_insertionSort _ _
  · intro s
    rw [pySortedByLen, hperm.mem_iff]
    exact hunique s
  · exact List.length_take_le _ _
  · apply List.Pairwise.sublist (List.take_sublist _ _)
    rw [List.pairwise_append]
    refine ⟨?_, ?_, ?_⟩
    · apply List.pairwise_of_forall_mem_list
      intro a ha b hb
      intro hball
      exact ((hcommon a).mp ha).2
    · apply List.pairwise_of_forall_mem_list
      intro a ha b hb
      intro hball
      have hbm := hperm.mem_iff.mp hb
      exact absurd hball ((hunique b).mp hbm).2
    · intro a ha b hb
      intro hball
      exact ((hcommon a).mp ha).2

/-- C1: `process_complex_idea` never returns a merged `AgentResponse` — for
every choice of agents and every idea the call raises (the merge step
resolves `self._get_consensus_suggestions`, which does not exist on
`AgentCoordinator`), contradicting the claimed merge behaviour. -/
theorem process_complex_idea_never_returns
    (primary_agent : Idea → Except String AgentResponse)
    (supporting_agents : List (Idea → Except String AgentResponse)) (idea : Idea) :
    (process_complex_idea primary_agent supporting_agents idea).isOk = false := by
  unfold process_complex_idea
  cases hp : primary_agent idea with
  | error e => rfl
  | ok p =>
    cases hs : supporting_agents.mapM (fun agent => agent idea) with
    | error e => rfl
    | ok ss => rfl

/-- C8: the `DomainType` catalog in the source has exactly the eight members
technology, business, hard_science, code, literature, social_science, arts
and philosophy — there is no ninth `writing` member, and consequently the
prompt-manager code that refers to `DomainType.WRITING` fails on every
call. -/
theorem domain_type_catalog :
    (∀ d : DomainType, d ∈ all_domain_types)
    ∧ all_domain_types.map DomainType.value =
        ["technology", "business", "hard_science", "code", "literature",
         "social_science", "arts", "philosophy"]
    ∧ ((all_domain_types.map DomainType.value).contains "writing") = false
    ∧ ∀ d : DomainType, (get_domain_prompt d).isOk = false :=
  ⟨fun d => by cases d <;> decide, rfl, by decide, fun _ => rfl⟩

/-- A successful `List.lookup` finds a genuine key-value pair of the list. -/
lemma lookup_mem {α β : Type} [BEq α] [LawfulBEq α] {l : List (α × β)} {a : α} {b : β}
    (h : l.lookup a = some b) : (a, b) ∈ l := by
  induction l with
  | nil => simp [List.lookup] at h
  | cons p l ih =>
    rw [List.lookup] at h
    by_cases hab : a == p.1
    · rw [hab] at h
      simp only [Option.some.injEq] at h
      have h1 : a = p.1 := eq_of_beq hab
      have hp2 : p = (a, b) := by
        obtain ⟨p1, p2⟩ := p
        simp only at h1 h
        rw [h1, h]
      rw [hp2]
      exact List.mem_cons_self _ _
    · rw [Bool.not_eq_true] at hab
      rw [hab] at h
      exact List.mem_cons_of_mem _ (ih h)

/-- C7: `create_agent` fails exactly on a null domain; for every concrete
domain it succeeds, an unregistered domain yields the generic default agent
carrying that very domain, and a repeated call with the same domain returns
the reference-identical memoized instance with no new allocation. -/
theorem create_agent_spec (st : FactoryState) (d : DomainType) (hwf : FactoryWF st) :
    create_agent st none = .error "ValueError: Domain cannot be None"
    ∧ ∃ a st2, create_agent st (some d) = .ok (a, st2)
      ∧ a.domain = d
      ∧ (agent_registry.lookup d = none → a.kind = .genericDomainAgent)
      ∧ create_agent st2 (some d) = .ok (a, st2)
      ∧ FactoryWF st2 := by
  refine ⟨rfl, ?_⟩
  cases hc : st.cache.lookup d with
  | some a =>
    have hmem := lookup_mem hc
    have hp := hwf _ hmem
    refine ⟨a, st, ?_, hp.1, ?_, ?_, hwf⟩
    · simp only [create_agent, hc]
    · intro hreg
      have := hp.2
      rw [hreg] at this
      exact this
    · simp only [create_agent, hc]
  | none =>
    refine ⟨⟨(agent_registry.lookup d).getD .genericDomainAgent, d, st.next_id⟩,
      ⟨(d, ⟨(agent_registry.lookup d).getD .genericDomainAgent, d, st.next_id⟩) :: st.cache,
        st.next_id + 1⟩, ?_, rfl, ?_, ?_, ?_⟩
    · simp only [create_agent, hc]
    · intro hreg
      simp [hreg]
    · simp only [create_agent, List.lookup, beq_self_eq_true]
    · intro p hp
      rcases List.mem_cons.mp hp with h | h
      · rw [h]
        exact ⟨rfl, rfl⟩
      · exact hwf p h

/-- Witness for C7 at the empty factory state and the (unregistered)
literature domain. -/
theorem create_agent_spec_witness :
    FactoryWF ⟨[], 0⟩
    ∧ (create_agent ⟨[], 0⟩ none = .error "ValueError: Domain cannot be None"
      ∧ ∃ a st2, create_agent ⟨[], 0⟩ (some .literature) = .ok (a, st2)
        ∧ a.domain = .literature
        ∧ (agent_registry.lookup DomainType.literature = none →
            a.kind = .genericDomainAgent)
        ∧ create_agent st2 (some .literature) = .ok (a, st2)
        ∧ FactoryWF st2) :=
  ⟨by intro p hp; exact absurd hp (List.not_mem_nil p),
   create_agent_spec ⟨[], 0⟩ .literature (by intro p hp; exact absurd hp (List.not_mem_nil p))⟩

lemma amended_collect_cons_header {l : String} {sec : String} (cur : Option String)
    (ls : List String) (hh : recognized_header (pyStrip l) = some sec) :
    amended_collect cur (l :: ls) = amended_collect (some sec) ls := by
  show amended_line cur l (fun c => amended_collect c ls) = _
  unfold amended_line
  rw [hh]

lemma amended_collect_cons_colon {l : String} (cur : Option String) (ls : List String)
    (hh : recognized_header (pyStrip l) = none)
    (hc : pyContainsChar ':' (pyStrip l) = true) :
    amended_collect cur (l :: ls) = amended_collect cur ls := by
  show amended_line cur l (fun c => amended_collect c ls) = _
  unfold amended_line
  rw [hh, if_pos hc]

lemma amended_collect_cons_bullet {l : String} {sec : String} (ls : List String)
    (hh : recognized_header (pyStrip l) = none)
    (hc : pyContainsChar ':' (pyStrip l) = false)
    (hb : pyStartsWith "- " (pyStrip l) = true) :
    amended_collect (some sec) (l :: ls) =
      addFront sec ((pyStrip l).drop 2) (amended_collect (some sec) ls) := by
  show amended_line (some sec) l (fun c => amended_collect c ls) = _
  unfold amended_line
  rw [hh, hc]
  simp only [Bool.false_eq_true, if_false]
  rw [if_pos hb]

lemma amended_collect_cons_skip {l : String} (cur : Option String) (ls : List String)
    (hh : recognized_header (pyStrip l) = none)
    (hc : pyContainsChar ':' (pyStrip l) = false)
    (hrest : pyStartsWith "- " (pyStrip l) = false ∨ cur = none) :
    amended_collect cur (l :: ls) = amended_collect cur ls := by
  show amended_line cur l (fun c => amended_collect c ls) = _
  unfold amended_line
  rw [hh, hc]
  simp only [Bool.false_eq_true, if_false]
  rcases hrest with hb | hcur
  · rw [hb]
    simp only [Bool.false_eq_true, if_false]
  · rw [hcur]
    by_cases hb : pyStartsWith "- " (pyStrip l) = true
    · rw [if_pos hb]
    · rw [Bool.not_eq_true] at hb
      rw [hb]
      simp only [Bool.false_eq_true, if_false]

lemma append3_addFront (a : DomainSections) (sec e : String) (b : DomainSections) :
    append3 a (addFront sec e b) = append3 (addLine sec e a) b := by
  unfold addFront addLine append3
  split_ifs <;> simp

lemma append3_empty (a : DomainSections) : append3 a ⟨[], [], []⟩ = a := by
  simp [append3]

/-- Loop invariant: folding the imperative step over the remaining lines
appends, to the accumulated dict, exactly what the declarative collector
produces from the current section state. -/
lemma foldl_parse_eq (ls : List String) (acc : DomainSections) (cur : Option String) :
    (ls.foldl parse_step (acc, cur)).1 = append3 acc (amended_collect cur ls) := by
  induction ls generalizing acc cur with
  | nil => simp [amended_collect, append3_empty]
  | cons l ls ih =>
    rw [List.foldl_cons]
    cases hh : recognized_header (pyStrip l) with
    | some sec =>
      have hcolon : pyContainsChar ':' (pyStrip l) = true := by
        unfold recognized_header at hh
        by_cases hc : pyContainsChar ':' (pyStrip l) = true
        · exact hc
        · rw [Bool.not_eq_true] at hc
          rw [hc] at hh
          simp at hh
      have hnempty : ¬ pyStrip l = "" := by
        intro h0
        rw [h0] at hcolon
        have : pyContainsChar ':' "" = false := rfl
        rw [this] at hcolon
        cases hcolon
      have hdisj : (pyLower ((pySplit ':' (pyStrip l)).headD "") = "suggestions"
          ∨ pyLower ((pySplit ':' (pyStrip l)).headD "") = "questions"
          ∨ pyLower ((pySplit ':' (pyStrip l)).headD "") = "related_concepts")
          ∧ sec = pyLower ((pySplit ':' (pyStrip l)).headD "") := by
        unfold recognized_header at hh
        rw [hcolon] at hh
        simp only [if_true] at hh
        by_cases hd : pyLower ((pySplit ':' (pyStrip l)).headD "") = "suggestions"
            ∨ pyLower ((pySplit ':' (pyStrip l)).headD "") = "questions"
            ∨ pyLower ((pySplit ':' (pyStrip l)).headD "") = "related_concepts"
        · rw [if_pos hd] at hh
          exact ⟨hd, (Option.some.injEq _ _ ▸ hh).symm⟩
        · rw [if_neg hd] at hh
          cases hh
      have hps : parse_step (acc, cur) l = (acc, some sec) := by
        unfold parse_step
        rw [if_neg hnempty, if_pos hcolon, if_pos hdisj.1, ← hdisj.2]
      rw [hps, amended_collect_cons_header cur ls hh]
      exact ih acc (some sec)
    | none =>
      by_cases hcolon : pyContainsChar ':' (pyStrip l) = true
      · have hnempty : ¬ pyStrip l = "" := by
          intro h0
          rw [h0] at hcolon
          have : pyContainsChar ':' "" = false := rfl
          rw [this] at hcolon
          cases hcolon
        have hndisj : ¬ (pyLower ((pySplit ':' (pyStrip l)).headD "") = "suggestions"
            ∨ pyLower ((pySplit ':' (pyStrip l)).headD "") = "questions"
            ∨ pyLower ((pySplit ':' (pyStrip l)).headD "") = "related_concepts") := by
          intro hd
          unfold recognized_header at hh
          rw [hcolon] at hh
          simp only [if_true] at hh
          rw [if_pos hd] at hh
          cases hh
        have hps : parse_step (acc, cur) l = (acc, cur) := by
          unfold parse_step
          rw [if_neg hnempty, if_pos hcolon, if_neg hndisj]
        rw [hps, amended_collect_cons_colon cur ls hh hcolon]
        exact ih acc cur
      · rw [Bool.not_eq_true] at hcolon
        by_cases hempty : pyStrip l = ""
        · have hps : parse_step (acc, cur) l = (acc, cur) := by
            unfold parse_step
            rw [if_pos hempty]
          have hbul : pyStartsWith "- " (pyStrip l) = false := by
            rw [hempty]
            rfl
          rw [hps, amended_collect_cons_skip cur ls hh hcolon (Or.inl hbul)]
          exact ih acc cur
        · by_cases hbul : pyStartsWith "- " (pyStrip l) = true
          · cases cur with
            | some sec =>
              have hps : parse_step (acc, some sec) l =
                  (addLine sec ((pyStrip l).drop 2) acc, some sec) := by
                unfold parse_step
                rw [if_neg hempty, hcolon]
                simp only [Bool.false_eq_true, if_false]
                rw [if_pos hbul]
              rw [hps, amended_collect_cons_bullet ls hh hcolon hbul, append3_addFront]
              exact ih _ (some sec)
            | none =>
              have hps : parse_step (acc, none) l = (acc, none) := by
                unfold parse_step
                rw [if_neg hempty, hcolon]
                simp only [Bool.false_eq_true, if_false]
                rw [if_pos hbul]
              rw [hps, amended_collect_cons_skip none ls hh hcolon (Or.inr rfl)]
              exact ih acc none
          · rw [Bool.not_eq_true] at hbul
            have hps : parse_step (acc, cur) l = (acc, cur) := by
              unfold parse_step
              rw [if_neg hempty, hcolon]
              simp only [Bool.false_eq_true, if_false]
              rw [hbul]
              simp only [Bool.false_eq_true, if_false]
            rw [hps, amended_collect_cons_skip cur ls hh hcolon (Or.inl hbul)]
            exact ih acc cur

/-- With no recognized header anywhere, the declarative collector collects
nothing from a `none` start state. -/
lemma amended_collect_no_header (ls : List String)
    (h : ∀ l ∈ ls, recognized_header (pyStrip l) = none) :
    amended_collect none ls = ⟨[], [], []⟩ := by
  induction ls with
  | nil => rfl
  | cons l ls ih =>
    have hh := h l (List.mem_cons_self _ _)
    have ihh := ih (fun x hx => h x (List.mem_cons_of_mem _ hx))
    by_cases hcolon : pyContainsChar ':' (pyStrip l) = true
    · rw [amended_collect_cons_colon none ls hh hcolon]
      exact ihh
    · rw [Bool.not_eq_true] at hcolon
      rw [amended_collect_cons_skip none ls hh hcolon (Or.inr rfl)]
      exact ihh

/-- C9 counterexample: on the completion text
`"suggestions:\n- use caching\n- speed: fast"`, the second bullet line
starts with `"- "` and follows the suggestions header, so the claim as
stated collects it; the source parser does not, because the line contains a
colon and is consumed by the header branch. -/
theorem domain_parse_colon_bullet_dropped :
    (domain_parse_analysis "suggestions:\n- use caching\n- speed: fast").suggestions =
      ["use caching"]
    ∧ (claimed_collect none
        (pySplit '\n' "suggestions:\n- use caching\n- speed: fast")).suggestions =
      ["use caching", "speed: fast"] := by
  constructor
  · rfl
  · rfl

/-- C9 (amended): the parser is total and returns exactly the three section
lists; each list collects, in order, exactly the colon-free stripped lines
starting with `"- "` (prefix removed) governed by the most recently seen
recognized header line, and an input with no recognized header yields three
empty lists.  (The amendment relative to the claim: a bullet line containing
a colon is treated as a failed header candidate and never collected.) -/
theorem domain_parse_analysis_spec (response : String) :
    domain_parse_analysis response = amended_collect none (pySplit '\n' response)
    ∧ ((∀ l ∈ pySplit '\n' response, recognized_header (pyStrip l) = none) →
        domain_parse_analysis response = ⟨[], [], []⟩) := by
  have heq : domain_parse_analysis response = amended_collect none (pySplit '\n' response) := by
    unfold domain_parse_analysis
    rw [foldl_parse_eq]
    simp [append3]
  refine ⟨heq, ?_⟩
  intro hnone
  rw [heq]
  exact amended_collect_no_header _ hnone

/-- Witness for C9 at a concrete header-free input. -/
theorem domain_parse_analysis_spec_witness :
    (∀ l ∈ pySplit '\n' "no headers here\n- stray bullet",
      recognized_header (pyStrip l) = none)
    ∧ domain_parse_analysis "no headers here\n- stray bullet" = ⟨[], [], []⟩ :=
  ⟨by decide, (domain_parse_analysis_spec "no headers here\n- stray bullet").2 (by decide)⟩

/-- C4 counterexample: a completion with exactly two blank-line-separated
paragraphs makes the technology parser raise `IndexError` — the claimed
placeholder padding does not exist. -/
theorem tech_parse_two_paragraphs_raises :
    tech_parse_analysis "Executive summary paragraph.\n\nImplementation details paragraph." =
      .error "IndexError: list index out of range" := rfl

/-- C4 (amended): the specialized analysis parse succeeds exactly when the
completion has at least 5 non-empty paragraphs; with fewer it raises
`IndexError` instead of padding with placeholder content, for both the
technology and the science parser. -/
theorem parse_analysis_paragraph_guard (response : String) :
    ((tech_parse_analysis response).isOk = true ↔ 5 ≤ (split_paragraphs response).length)
    ∧ ((sci_parse_analysis response).isOk = true ↔ 5 ≤ (split_paragraphs response).length)
    ∧ ((split_paragraphs response).length < 5 →
        tech_parse_analysis response = .error "IndexError: list index out of range"
        ∧ sci_parse_analysis response = .error "IndexError: list index out of range") := by
  have hgen : ∀ words : List String,
      ((parse_analysis_response words response).isOk = true ↔
        5 ≤ (split_paragraphs response).length) := by
    intro words
    unfold parse_analysis_response
    by_cases h5 : 5 ≤ (split_paragraphs response).length
    · rw [dif_pos h5]
      exact iff_of_true rfl h5
    · rw [dif_neg h5]
      refine iff_of_false (fun h => ?_) h5
      exact absurd h (by decide)
  have herr : ∀ words : List String, (split_paragraphs response).length < 5 →
      parse_analysis_response words response = .error "IndexError: list index out of range" := by
    intro words hlt
    unfold parse_analysis_response
    rw [dif_neg (by omega)]
  exact ⟨hgen tech_words, hgen sci_words,
    fun hlt => ⟨herr tech_words hlt, herr sci_words hlt⟩⟩

/-- Witness for C4 at the concrete two-paragraph completion. -/
theorem parse_analysis_paragraph_guard_witness :
    ((split_paragraphs "First part.\n\nSecond part.").length < 5)
    ∧ (tech_parse_analysis "First part.\n\nSecond part." =
        .error "IndexError: list index out of range"
      ∧ sci_parse_analysis "First part.\n\nSecond part." =
        .error "IndexError: list index out of range") :=
  ⟨by decide, (parse_analysis_paragraph_guard "First part.\n\nSecond part.").2.2 (by decide)⟩

/-- C5 counterexample: with every external collaborator succeeding, the
science agent's image-generation step still fails (`create_image` is not an
attribute of `OpenAIService`) and the failure propagates out of
`process_idea` instead of being recovered with a null `concept_image`. -/
theorem sci_process_idea_image_error :
    sci_process_idea ok_services ⟨[], 0⟩ ⟨"concept", .hard_science, ["kw"], "seed"⟩ =
      .error "AttributeError: 'OpenAIService' object has no attribute 'create_image'" := rfl

/-- C5 (amended): a diagram-generation failure is recovered locally — the
generic agent's `process_idea` returns normally with `next_steps_tree` null
and the renderer's error is not propagated — but an image-generation failure
inside `ScienceAgent.process_idea` is not recovered: the science agent's
image step re-raises, so its `process_idea` never returns a response. -/
theorem diagram_failure_recovered_image_failure_propagates (idea : Idea) (c e : String) :
    (∃ resp, domain_process_idea (diag_fail_services c e) idea = .ok resp ∧
      resp.next_steps_tree = none)
    ∧ (∀ (svc : Services) (st : AnalysisCacheState),
        (sci_process_idea svc st idea).isOk = false) := by
  constructor
  · exact ⟨_, rfl, rfl⟩
  · intro svc st
    unfold sci_process_idea
    cases ha : sci_analyze_idea svc st idea with
    | error e2 => rfl
    | ok pr =>
      dsimp only
      cases hs : svc.create_completion (sci_implementation_prompt idea pr.1) with
      | error e2 => rfl
      | ok sraw =>
        dsimp only
        unfold sci_generate_concept_image
        cases hi : svc.create_completion (sci_image_prompt idea pr.1) with
        | error e2 => rfl
        | ok w => rfl

/-- C6 counterexample: the generic default `DomainAgent` memoizes nothing —
running its analysis twice on the identical idea invokes the completion
service twice, not once, refuting the claim's quantification over every
agent instance. -/
theorem domain_agent_analysis_not_cached :
    domain_analyze_idea ok_services ⟨[], 0⟩ ⟨"concept", .literature, ["kw"], "seed"⟩ =
      .ok (⟨[], [], []⟩, ⟨[], 1⟩)
    ∧ domain_analyze_idea ok_services ⟨[], 1⟩ ⟨"concept", .literature, ["kw"], "seed"⟩ =
      .ok (⟨[], [], []⟩, ⟨[], 2⟩) :=
  ⟨rfl, rfl⟩

lemma lexLe_total : ∀ a b : List Char, lexLe a b = true ∨ lexLe b a = true := by
  intro a
  induction a with
  | nil => intro b; left; rfl
  | cons x xs ih =>
    intro b
    cases b with
    | nil => right; rfl
    | cons y ys =>
      by_cases hxy : x < y
      · left
        unfold lexLe
        rw [if_pos hxy]
      · by_cases hyx : y < x
        · right
          unfold lexLe
          rw [if_pos hyx]
        · have hxy2 : x = y := le_antisymm (not_lt.mp hyx) (not_lt.mp hxy)
          subst hxy2
          rcases ih ys with h | h
          · left
            unfold lexLe
            rw [if_neg hxy, if_pos rfl]
            exact h
          · right
            unfold lexLe
            rw [if_neg hxy, if_pos rfl]
            exact h

lemma lexLe_antisymm : ∀ a b : List Char, lexLe a b = true → lexLe b a = true → a = b := by
  intro a
  induction a with
  | nil =>
    intro b h1 h2
    cases b with
    | nil => rfl
    | cons y ys =>
      unfold lexLe at h2
      exact absurd h2 (by decide)
  | cons x xs ih =>
    intro b h1 h2
    cases b with
    | nil =>
      unfold lexLe at h1
      exact absurd h1 (by decide)
    | cons y ys =>
      unfold lexLe at h1 h2
      by_cases hxy : x < y
      · rw [if_neg (asymm hxy), if_neg ((ne_of_lt hxy).symm)] at h2
        exact absurd h2 (by decide)
      · by_cases hyx : y < x
        · rw [if_neg hxy, if_neg (ne_of_lt hyx).symm] at h1
          exact absurd h1 (by decide)
        · have hxy2 : x = y := le_antisymm (not_lt.mp hyx) (not_lt.mp hxy)
          subst hxy2
          rw [if_neg hxy, if_pos rfl] at h1 h2
          rw [ih ys h1 h2]

lemma lexLe_trans : ∀ a b c : List Char,
    lexLe a b = true → lexLe b c = true → lexLe a c = true := by
  intro a
  induction a with
  | nil => intro b c h1 h2; rfl
  | cons x xs ih =>
    intro b c h1 h2
    cases b with
    | nil =>
      unfold lexLe at h1
      exact absurd h1 (by decide)
    | cons y ys =>
      cases c with
      | nil =>
        unfold lexLe at h2
        exact absurd h2 (by decide)
      | cons z zs =>
        unfold lexLe at h1 h2 ⊢
        by_cases hxy : x < y
        · by_cases hyz : y < z
          · rw [if_pos (lt_trans hxy hyz)]
          · by_cases hyz2 : y = z
            · subst hyz2
              rw [if_pos hxy]
            · rw [if_neg hyz, if_neg hyz2] at h2
              exact absurd h2 (by decide)
        · by_cases hxy2 : x = y
          · subst hxy2
            rw [if_neg hxy, if_pos rfl] at h1
            by_cases hxz : x < z
            · rw [if_pos hxz]
            · by_cases hxz2 : x = z
              · subst hxz2
                rw [if_neg hxz, if_pos rfl] at h2 ⊢
                exact ih ys zs h1 h2
              · rw [if_neg hxz, if_neg hxz2] at h2
                exact absurd h2 (by decide)
          · rw [if_neg hxy, if_neg hxy2] at h1
            exact absurd h1 (by decide)

instance : IsTotal String pyStrLe := ⟨fun a b => lexLe_total a.data b.data⟩

instance : IsTrans String pyStrLe := ⟨fun a b c h1 h2 => lexLe_trans a.data b.data c.data h1 h2⟩

instance : IsAntisymm String pyStrLe :=
  ⟨fun a b h1 h2 => by
    have hd := lexLe_antisymm a.data b.data h1 h2
    cases a
    cases b
    exact congrArg String.mk hd⟩

/-- Python `sorted` is a function of the multiset of its input: permuted
keyword lists produce the identical sorted list. -/
lemma pySorted_perm_eq {l1 l2 : List String} (h : l1.Perm l2) : pySorted l1 = pySorted l2 := by
  apply List.eq_of_perm_of_sorted ?_ (List.sorted_insertionSort _ _)
    (List.sorted_insertionSort _ _)
  exact (List.perm_insertionSort _ l1).trans (h.trans (List.perm_insertionSort _ l2).symm)

/-- C6 (amended to the specialized agents that define `_analyze_idea_cached`,
here the technology agent; the generic `DomainAgent` has no cache): from a
fresh instance, analyzing an idea makes exactly one completion call, a
second idea with the identical concept and a permuted keyword list is served
from the cache with no further completion call, while a second idea whose
cache key differs (keys sorted but not otherwise normalized, so casing or
whitespace differences produce a different key) triggers a fresh completion
call, for two in total. -/
theorem tech_analysis_cache_spec (svc : Services) (i1 i2 : Idea) (a1 : ParsedAnalysis)
    (st1 : AnalysisCacheState)
    (h1 : tech_analyze_idea svc ⟨[], 0⟩ i1 = .ok (a1, st1)) :
    st1.completion_calls = 1
    ∧ (i1.concept = i2.concept → i1.keywords.Perm i2.keywords →
        tech_analyze_idea svc st1 i2 = .ok (a1, st1))
    ∧ (idea_cache_key i2 ≠ idea_cache_key i1 →
        ∀ a2 st2, tech_analyze_idea svc st1 i2 = .ok (a2, st2) →
          st2.completion_calls = 2) := by
  unfold tech_analyze_idea cached_analyze at h1
  rw [show (AnalysisCacheState.mk [] 0).cache.lookup (idea_cache_key i1) = none from rfl] at h1
  dsimp only at h1
  cases hc : svc.create_completion (tech_analysis_prompt i1.concept (idea_cache_key i1).2) with
  | error e =>
    rw [hc] at h1
    exact absurd h1 (by simp)
  | ok resp =>
    rw [hc] at h1
    dsimp only at h1
    cases hp : parse_analysis_response tech_words resp with
    | error e =>
      rw [hp] at h1
      exact absurd h1 (by simp)
    | ok a =>
      rw [hp] at h1
      simp only [Except.ok.injEq, Prod.mk.injEq] at h1
      obtain ⟨ha, hst⟩ := h1
      subst ha
      refine ⟨by rw [← hst], ?_, ?_⟩
      · intro hcon hperm
        have hkey : idea_cache_key i2 = idea_cache_key i1 := by
          unfold idea_cache_key sorted_join
          rw [← hcon, pySorted_perm_eq hperm.symm]
        unfold tech_analyze_idea cached_analyze
        rw [hkey, ← hst]
        simp [List.lookup]
      · intro hne a2 st2 h2
        unfold tech_analyze_idea cached_analyze at h2
        have hlk : st1.cache.lookup (idea_cache_key i2) = none := by
          rw [← hst]
          simp [List.lookup, beq_eq_false_iff_ne.mpr hne]
        rw [hlk] at h2
        dsimp only at h2
        cases hc2 : svc.create_completion
            (tech_analysis_prompt i2.concept (idea_cache_key i2).2) with
        | error e =>
          rw [hc2] at h2
          exact absurd h2 (by simp)
        | ok resp2 =>
          rw [hc2] at h2
          dsimp only at h2
          cases hp2 : parse_analysis_response tech_words resp2 with
          | error e =>
            rw [hp2] at h2
            exact absurd h2 (by simp)
          | ok a2b =>
            rw [hp2] at h2
            simp only [Except.ok.injEq, Prod.mk.injEq] at h2
            rw [← h2.2, ← hst]

/-- Witness for C6: two concrete ideas sharing the concept, with keyword
lists that are reorderings of each other. -/
theorem tech_analysis_cache_spec_witness :
    (tech_analyze_idea ok_services ⟨[], 0⟩ ⟨"c", .technology, ["b", "a"], "s"⟩ =
      .ok (⟨[], [], [], []⟩, ⟨[(("c", "a,b"), ⟨[], [], [], []⟩)], 1⟩))
    ∧ ((⟨[(("c", "a,b"), ⟨[], [], [], []⟩)], 1⟩ : AnalysisCacheState).completion_calls = 1
      ∧ ((⟨"c", .technology, ["b", "a"], "s"⟩ : Idea).concept =
            (⟨"c", .technology, ["a", "b"], "s"⟩ : Idea).concept →
          (⟨"c", .technology, ["b", "a"], "s"⟩ : Idea).keywords.Perm
            (⟨"c", .technology, ["a", "b"], "s"⟩ : Idea).keywords →
          tech_analyze_idea ok_services ⟨[(("c", "a,b"), ⟨[], [], [], []⟩)], 1⟩
              ⟨"c", .technology, ["a", "b"], "s"⟩ =
            .ok (⟨[], [], [], []⟩, ⟨[(("c", "a,b"), ⟨[], [], [], []⟩)], 1⟩))
      ∧ (idea_cache_key (⟨"c", .technology, ["a", "b"], "s"⟩ : Idea) ≠
            idea_cache_key (⟨"c", .technology, ["b", "a"], "s"⟩ : Idea) →
          ∀ a2 st2, tech_analyze_idea ok_services ⟨[(("c", "a,b"), ⟨[], [], [], []⟩)], 1⟩
              ⟨"c", .technology, ["a", "b"], "s"⟩ = .ok (a2, st2) →
            st2.completion_calls = 2)) :=
  ⟨rfl, tech_analysis_cache_spec ok_services ⟨"c", .technology, ["b", "a"], "s"⟩
    ⟨"c", .technology, ["a", "b"], "s"⟩ ⟨[], [], [], []⟩
    ⟨[(("c", "a,b"), ⟨[], [], [], []⟩)], 1⟩ rfl⟩

end Hephaestus

